import Mathlib

/-!
Verification of the themekit synchronization client (`theme_client.go`).

This file gives a shallow embedding of the client's data model and
operations and proves/refutes the specification claims about them.
Conventions of the embedding:

* Go slices become `List`, machine strings become `String`, and the
  lexicographic byte order used to sort asset keys is spelled out as an
  executable comparison on the underlying character lists.
* HTTP exchanges are abstracted into response values / response oracles:
  a function's network interaction is represented by the decoded
  response (`ApiResponse`) or, for repeated calls, by an oracle indexed
  by the call number.  A transport failure is an `err` field, a body
  that does not decode is `none`.
* Channel-based concurrency is embedded as the totally ordered trace of
  channel operations the (sequential) goroutine bodies attempt.
-/

/-! ## Strings: lexicographic order and substring containment -/

/-- Lexicographic comparison of character lists (byte order on code
points), the order in which a remote listing is sorted by key. -/
def charListLt : List Char → List Char → Bool
  | [], [] => false
  | [], _ :: _ => true
  | _ :: _, [] => false
  | a :: as, b :: bs =>
    if a.toNat < b.toNat then true
    else if b.toNat < a.toNat then false
    else charListLt as bs

/-- Lexicographic (ascending) order on asset keys. -/
def keyLt (a b : String) : Bool := charListLt a.data b.data

/-- Contiguous-sublist test: does `needle` occur inside the tail list? -/
def subListOf (needle : List Char) : List Char → Bool
  | [] => needle.isEmpty
  | c :: rest => needle.isPrefixOf (c :: rest) || subListOf needle rest

/-- Embedding of Go's `strings.Contains(hay, needle)`: `needle` occurs as
a contiguous substring of `hay` (always true for the empty needle). -/
def strContains (hay needle : String) : Bool := subListOf needle.data hay.data

/-! ## Data model -/

/-- One theme file (`Asset`): identified by its relative path `Key`,
carrying a textual `Value` or binary `Attachment` payload. -/
structure Asset where
  Key : String
  Value : String
  Attachment : String
deriving DecidableEq, Repr

/-- Modelled from the spec: `Configuration` (defined outside the provided
sources) is the immutable value bag of §3 — admin URL, asset collection
path, rate-limiter capacity and refill rate, and the bound theme
identifier.  Ignore patterns and proxy settings are not needed by any
claim and are omitted. -/
structure Configuration where
  ThemeId : Int
  AssetPath : String
  AdminUrl : String
  BucketSize : Nat
  RefillRate : Nat
deriving DecidableEq, Repr

/-- Modelled from the spec: `Configuration.Initialize` is defined outside
the provided sources; §3 treats Configuration as an immutable value bag
constructed once, so initialization is the identity on the embedded
fields. -/
def Configuration.Initialize (c : Configuration) : Configuration := c

/-- The synchronization client (`ThemeClient`): a configuration plus the
ignore predicate.  The Go struct's `filter EventFilter` is built by the
external `NewEventFilterFromPatternsAndFiles`; its `MatchesFilter` method
is embedded as an abstract boolean predicate over path strings. -/
structure ThemeClient where
  config : Configuration
  filter : String → Bool

/-- Embedding of `NewThemeClient` (theme_client.go:74-80).  The event
filter is derived from the configuration by external code; the embedding
takes the resulting predicate as an argument. -/
def NewThemeClient (config : Configuration) (filter : String → Bool) : ThemeClient :=
  ⟨config, filter⟩

/-- Embedding of `ThemeClient.GetConfiguration` (theme_client.go:82-84). -/
def ThemeClient.GetConfiguration (t : ThemeClient) : Configuration := t.config

/-! ## Compiled-asset deduplication (theme_client.go:332-350) -/

/-- Embedding of the local closure `isCompiled` inside
`ignoreCompiledAssets`: the asset's key occurs as a substring of the key
of some asset in `rest` (the suffix of the listing after it). -/
def isCompiled (a : Asset) (rest : List Asset) : Bool :=
  rest.any (fun other => strContains other.Key a.Key)

/-- Embedding of `ignoreCompiledAssets` (theme_client.go:332-350): a
single forward pass keeping exactly the assets whose key is not contained
in a later asset's key, preserving order. -/
def ignoreCompiledAssets : List Asset → List Asset
  | [] => []
  | a :: rest =>
    if isCompiled a rest then ignoreCompiledAssets rest
    else a :: ignoreCompiledAssets rest

theorem ignoreCompiledAssets_sublist (l : List Asset) :
    List.Sublist (ignoreCompiledAssets l) l := by
  induction l with
  | nil => exact List.Sublist.refl _
  | cons a rest ih =>
    cases hc : isCompiled a rest with
    | true => simpa [ignoreCompiledAssets, hc] using ih.cons a
    | false => simpa [ignoreCompiledAssets, hc] using ih.cons₂ a

theorem charListLt_irrefl : ∀ l : List Char, charListLt l l = false
  | [] => rfl
  | c :: rest => by simp [charListLt, charListLt_irrefl rest]

theorem keyLt_ne {a b : String} (h : keyLt a b = true) : a ≠ b := by
  intro he; subst he
  rw [keyLt, charListLt_irrefl] at h
  exact Bool.false_ne_true h

/-- The key of an asset that is unique in the listing is retained by the
deduplication pass exactly when no later asset's key contains it. -/
theorem keyMem_ignoreCompiledAssets_append (a : Asset) :
    ∀ l₁ l₂ : List Asset, a.Key ∉ l₁.map Asset.Key → a.Key ∉ l₂.map Asset.Key →
      (a.Key ∈ (ignoreCompiledAssets (l₁ ++ a :: l₂)).map Asset.Key ↔
        isCompiled a l₂ = false) := by
  intro l₁
  induction l₁ with
  | nil =>
    intro l₂ _ h2
    cases hc : isCompiled a l₂ with
    | true =>
      simp only [List.nil_append, ignoreCompiledAssets, hc, if_true]
      constructor
      · intro hmem
        exact absurd (((ignoreCompiledAssets_sublist l₂).map Asset.Key).subset hmem) h2
      · intro hfalse; exact absurd hfalse (by simp)
    | false =>
      simp [ignoreCompiledAssets, hc]
  | cons b l₁ ih =>
    intro l₂ h1 h2
    have hb : a.Key ≠ b.Key := by
      intro he; exact h1 (by simp [he])
    have h1' : a.Key ∉ l₁.map Asset.Key := by
      intro hm; exact h1 (by simp [hm])
    cases hc : isCompiled b (l₁ ++ a :: l₂) with
    | true =>
      simpa [ignoreCompiledAssets, hc] using ih l₂ h1' h2
    | false =>
      rw [List.cons_append]
      rw [show ignoreCompiledAssets (b :: (l₁ ++ a :: l₂)) =
            b :: ignoreCompiledAssets (l₁ ++ a :: l₂) by
          simp [ignoreCompiledAssets, hc]]
      rw [List.map_cons, List.mem_cons]
      rw [← ih l₂ h1' h2]
      constructor
      · rintro (he | hm)
        · exact absurd he hb
        · exact hm
      · intro hm; exact Or.inr hm

/-- The listing used to refute the pairwise part of the deduplication
claim: sorted ascending, pairwise-distinct keys. -/
def dedupListing : List Asset :=
  [⟨"a", "", ""⟩, ⟨"ab", "", ""⟩, ⟨"abc", "", ""⟩, ⟨"b", "", ""⟩]

/-- C1 (counterexample): on the sorted, duplicate-free listing
`["a","ab","abc","b"]` the claim's pairwise property fails: the pair
`("b","abc")` has `"b"` a strict substring of `"abc"` yet both survive
the pass (and the pair `("a","ab")` loses both members).  So it is not
the case that for every substring-related pair exactly one member is
retained. -/
theorem dedup_pairwise_refuted :
    List.Pairwise (fun x y : Asset => keyLt x.Key y.Key = true) dedupListing ∧
    (dedupListing.map Asset.Key).Nodup ∧
    ¬ (∀ A ∈ dedupListing.map Asset.Key, ∀ B ∈ dedupListing.map Asset.Key,
        strContains B A = true → A ≠ B →
        (A ∈ (ignoreCompiledAssets dedupListing).map Asset.Key ↔
          B ∉ (ignoreCompiledAssets dedupListing).map Asset.Key)) := by
  refine ⟨by decide, by decide, ?_⟩
  intro h
  have := h "b" (by decide) "abc" (by decide) (by decide) (by decide)
  revert this
  decide

/-- C1 (amended): for every listing with pairwise-distinct keys (in
particular every sorted ascending, duplicate-free listing), the pass
suppresses exactly those assets whose key is a strict substring of some
later asset's key, and retained assets keep their relative order;
consequently, for a pair `A, B` where `A` occurs before `B` and `A` is a
strict substring of `B`, the output never contains `A` (so never both) —
but it need not contain exactly one of the pair. -/
theorem dedup_suppression_characterization (l : List Asset)
    (hsorted : List.Pairwise (fun x y : Asset => keyLt x.Key y.Key = true) l) :
    List.Sublist (ignoreCompiledAssets l) l ∧
    (∀ l₁ a l₂, l = l₁ ++ a :: l₂ →
      (a.Key ∈ (ignoreCompiledAssets l).map Asset.Key ↔
        ∀ b ∈ l₂, ¬ (strContains b.Key a.Key = true ∧ a.Key ≠ b.Key))) ∧
    (∀ l₁ a l₂ b, l = l₁ ++ a :: l₂ → b ∈ l₂ → strContains b.Key a.Key = true →
      a.Key ∉ (ignoreCompiledAssets l).map Asset.Key) := by
  have hnodup : (l.map Asset.Key).Nodup := by
    have h2 : List.Pairwise (fun x y : String => keyLt x y = true) (l.map Asset.Key) :=
      (List.pairwise_map).mpr hsorted
    exact h2.imp (fun h => keyLt_ne h)
  have split_not_mem : ∀ l₁ (a : Asset) l₂, l = l₁ ++ a :: l₂ →
      a.Key ∉ l₁.map Asset.Key ∧ a.Key ∉ l₂.map Asset.Key := by
    intro l₁ a l₂ he
    subst he
    rw [List.map_append, List.map_cons] at hnodup
    have hmid := List.nodup_middle.mp hnodup
    have hnotmem := (List.nodup_cons.mp hmid).1
    rw [List.mem_append] at hnotmem
    push_neg at hnotmem
    exact hnotmem
  have hmain : ∀ l₁ a l₂, l = l₁ ++ a :: l₂ →
      (a.Key ∈ (ignoreCompiledAssets l).map Asset.Key ↔
        ∀ b ∈ l₂, ¬ (strContains b.Key a.Key = true ∧ a.Key ≠ b.Key)) := by
    intro l₁ a l₂ he
    obtain ⟨h1, h2⟩ := split_not_mem l₁ a l₂ he
    rw [he, keyMem_ignoreCompiledAssets_append a l₁ l₂ h1 h2]
    rw [isCompiled, List.any_eq_false]
    constructor
    · intro h b hb hcon
      exact absurd hcon.1 (h b hb)
    · intro h b hb
      have hne : a.Key ≠ b.Key := by
        intro heq; exact h2 (by rw [heq]; exact List.mem_map_of_mem Asset.Key hb)
      intro hcon
      exact h b hb ⟨hcon, hne⟩
  refine ⟨ignoreCompiledAssets_sublist l, hmain, ?_⟩
  intro l₁ a l₂ b he hb hcon
  rw [hmain l₁ a l₂ he]
  intro hall
  have hne : a.Key ≠ b.Key := by
    intro heq
    have := (split_not_mem l₁ a l₂ he).2
    exact this (by rw [heq]; exact List.mem_map_of_mem Asset.Key hb)
  exact hall b hb ⟨hcon, hne⟩

/-- C1 (witness): the theorem applied to the concrete sorted listing
`["app", "app.min"]`: `"app"` is a strict substring of the later
`"app.min"`, so `"app"` is suppressed. -/
theorem dedup_suppression_witness :
    "app" ∉ (ignoreCompiledAssets [⟨"app", "", ""⟩, ⟨"app.min", "", ""⟩]).map Asset.Key := by
  have h := (dedup_suppression_characterization
      [⟨"app", "", ""⟩, ⟨"app.min", "", ""⟩] (by decide)).2.2
      [] ⟨"app", "", ""⟩ [⟨"app.min", "", ""⟩] ⟨"app.min", "", ""⟩
      rfl (by decide) (by decide)
  exact h

/-! ## Theme creation with retry (theme_client.go:175-218) -/

/-- Maximum number of theme-creation attempts (theme_client.go:19). -/
def CreateThemeMaxRetries : Nat := 3

/-- Result of a theme create/status HTTP call (`APIThemeEvent`, defined
outside the provided sources).  Modelled from the spec: a theme-status
result carries the theme id, the previewable flag and a success
discriminant (§3).  `Successful` embeds the Go method of that name. -/
structure APIThemeEvent where
  ThemeId : Int
  Previewable : Bool
  Successful : Bool
deriving DecidableEq, Repr

/-- State of the create-with-retry loop in `CreateTheme`
(theme_client.go:188-205): the `retries` counter, the `ready` flag, the
last event observed (`themeEvent`), and the events broadcast on the log
channel, in attempt order. -/
structure CreateLoopState where
  retries : Nat
  ready : Bool
  lastEvent : Option APIThemeEvent
  log : List APIThemeEvent
deriving DecidableEq, Repr

/-- Embedding of the retry loop body of `CreateTheme`
(theme_client.go:192-199).  `send n` is the outcome of the `n`-th
`sendData("POST", path, data)` call; `fuel` bounds the recursion (the Go
loop terminates because each iteration either increments `retries` or
sets `ready`). -/
def createLoop (send : Nat → APIThemeEvent) : Nat → Nat → CreateLoopState → CreateLoopState
  | 0, _, s => s
  | fuel + 1, attempt, s =>
    if s.retries < CreateThemeMaxRetries ∧ ¬s.ready then
      let ev := send attempt
      if ev.Successful then
        createLoop send fuel (attempt + 1)
          { s with ready := true, lastEvent := some ev, log := s.log ++ [ev] }
      else
        createLoop send fuel (attempt + 1)
          { s with retries := s.retries + 1, lastEvent := some ev, log := s.log ++ [ev] }
    else s

/-- The create-with-retry phase of `CreateTheme`, started from
`retries = 0`, `ready = false` (theme_client.go:188-205).  Fuel
`CreateThemeMaxRetries + 1` suffices: the loop makes at most
`CreateThemeMaxRetries` send calls. -/
def createThemePhase1 (send : Nat → APIThemeEvent) : CreateLoopState :=
  createLoop send (CreateThemeMaxRetries + 1) 0 ⟨0, false, none, []⟩

/-- Embedding of the retries-exhausted notification in `CreateTheme`
(theme_client.go:200-203): after the loop, if `retries` reached the
maximum, `NotifyError` receives an error naming the archive location. -/
def createThemeNotification (zipLocation : String) (s : CreateLoopState) : Option String :=
  if CreateThemeMaxRetries ≤ s.retries then
    some ("'" ++ zipLocation ++ "' cannot be retrieved from Github.")
  else none

/-- Embedding of `ThemeClient.isDoneProcessing` (theme_client.go:308-312):
query the theme-status endpoint and report the previewable flag.
`status q` is the response of the `q`-th status query. -/
def isDoneProcessing (status : Nat → APIThemeEvent) (q : Nat) : Bool :=
  (status q).Previewable

/-- Fixed readiness-poll interval of `CreateTheme` in milliseconds
(theme_client.go:209). -/
def pollIntervalMs : Nat := 250

/-- Embedding of the readiness poll of `CreateTheme`
(theme_client.go:207-212): repeatedly query the status endpoint
(sleeping `pollIntervalMs` between queries) until it reports previewable.
Returns the total number of queries made, or `none` if the poll is still
running after `fuel` queries (the Go loop has no timeout). -/
def pollLoop (status : Nat → APIThemeEvent) : Nat → Nat → Option Nat
  | 0, _ => none
  | fuel + 1, q =>
    if isDoneProcessing status q then some (q + 1)
    else pollLoop status fuel (q + 1)

/-- Embedding of `ThemeClient.CreateTheme` (theme_client.go:175-218):
run the create-with-retry loop, then block on the readiness poll, then
return a new client whose configuration carries the created theme's
identifier, together with the logged attempt events and the number of
status queries made.  `none` means the poll had not terminated within
`pollFuel` queries (the caller is still blocked). -/
def ThemeClient.CreateTheme (t : ThemeClient) (name zipLocation : String)
    (send : Nat → APIThemeEvent) (status : Nat → APIThemeEvent) (pollFuel : Nat) :
    Option (ThemeClient × List APIThemeEvent × Nat) :=
  let s := createThemePhase1 send
  let themeEvent := s.lastEvent.getD ⟨0, false, false⟩
  match pollLoop status pollFuel 0 with
  | none => none
  | some queries =>
    let config := { t.GetConfiguration with ThemeId := themeEvent.ThemeId }
    some (NewThemeClient config.Initialize t.filter, s.log, queries)

/-- C2: when every creation attempt is unsuccessful, the loop performs
exactly 3 attempts (`CreateThemeMaxRetries`), the fatal notification
naming the archive location fires, and the loop still hands the last
attempt's result — whose `Successful` is false — to the rest of
`CreateTheme`, which binds the returned client to its `ThemeId`. -/
theorem createTheme_allFail (send : Nat → APIThemeEvent) (zipLocation : String)
    (h : ∀ n, (send n).Successful = false) :
    (createThemePhase1 send).log = [send 0, send 1, send 2] ∧
    (createThemePhase1 send).log.length = CreateThemeMaxRetries ∧
    createThemeNotification zipLocation (createThemePhase1 send) =
      some ("'" ++ zipLocation ++ "' cannot be retrieved from Github.") ∧
    (createThemePhase1 send).lastEvent = some (send 2) ∧
    (send 2).Successful = false ∧
    (∀ t name status fuel cl log q,
      ThemeClient.CreateTheme t name zipLocation send status fuel = some (cl, log, q) →
        cl.config.ThemeId = (send 2).ThemeId) := by
  have hs : createThemePhase1 send = ⟨3, false, some (send 2), [send 0, send 1, send 2]⟩ := by
    simp [createThemePhase1, createLoop, CreateThemeMaxRetries, h]
  refine ⟨by rw [hs], by rw [hs]; rfl, by rw [hs]; rfl, by rw [hs], h 2, ?_⟩
  intro t name status fuel cl log q hcall
  rw [ThemeClient.CreateTheme, hs] at hcall
  cases hp : pollLoop status fuel 0 with
  | none => rw [hp] at hcall; exact absurd hcall (by simp)
  | some queries =>
    rw [hp] at hcall
    simp only [Option.some.injEq, Prod.mk.injEq] at hcall
    rw [← hcall.1]
    rfl

/-- C2 (witness): the all-fail theorem at the constant unsuccessful
oracle. -/
theorem createTheme_allFail_witness :
    (createThemePhase1 (fun _ => ⟨0, false, false⟩)).log.length = CreateThemeMaxRetries ∧
    createThemeNotification "http://example.com/theme.zip"
        (createThemePhase1 (fun _ => ⟨0, false, false⟩)) =
      some ("'" ++ "http://example.com/theme.zip" ++ "' cannot be retrieved from Github.") :=
  ⟨(createTheme_allFail (fun _ => ⟨0, false, false⟩) "http://example.com/theme.zip"
      (fun _ => rfl)).2.1,
   (createTheme_allFail (fun _ => ⟨0, false, false⟩) "http://example.com/theme.zip"
      (fun _ => rfl)).2.2.1⟩

theorem pollLoop_safety (status : Nat → APIThemeEvent) :
    ∀ fuel q n, pollLoop status fuel q = some n →
      q < n ∧ isDoneProcessing status (n - 1) = true := by
  intro fuel
  induction fuel with
  | zero => intro q n h; exact absurd h (by simp [pollLoop])
  | succ fuel ih =>
    intro q n h
    rw [pollLoop] at h
    cases hd : isDoneProcessing status q with
    | true =>
      rw [hd, if_pos rfl] at h
      have hn : n = q + 1 := by injection h with h'; omega
      subst hn
      exact ⟨Nat.lt_succ_self q, by simpa using hd⟩
    | false =>
      rw [hd] at h
      simp only [Bool.false_eq_true, if_false] at h
      have := ih (q + 1) n h
      exact ⟨by omega, this.2⟩

theorem pollLoop_scenario (status : Nat → APIThemeEvent) (N : Nat)
    (h : ∀ i, (status i).Previewable = true ↔ N ≤ i) :
    ∀ fuel q, q ≤ N → N < q + fuel → pollLoop status fuel q = some (N + 1) := by
  intro fuel
  induction fuel with
  | zero => intro q hq hlt; omega
  | succ fuel ih =>
    intro q hq hlt
    rw [pollLoop]
    rcases Nat.lt_or_ge q N with hqN | hqN
    · have hfalse : isDoneProcessing status q = false := by
        rw [isDoneProcessing]
        cases hp : (status q).Previewable with
        | false => rfl
        | true => exact absurd ((h q).mp hp) (by omega)
      rw [hfalse]
      simp only [Bool.false_eq_true, if_false]
      exact ih (q + 1) (by omega) (by omega)
    · have hqeq : q = N := by omega
      subst hqeq
      have htrue : isDoneProcessing status q = true := (h q).mpr (Nat.le_refl q)
      rw [htrue, if_pos rfl]

/-- C3: the readiness poll of `CreateTheme` never returns before a status
query reports the theme previewable (its last query answered true); when
the status endpoint reports previewable = false for the first `N` queries
and true thereafter, the handshake returns only after the `(N+1)`-th
query, at the fixed 250 ms interval; and the returned client's
configuration embeds the created theme's identifier. -/
theorem createTheme_poll_behaviour :
    pollIntervalMs = 250 ∧
    (∀ (status : Nat → APIThemeEvent) fuel q n,
        pollLoop status fuel q = some n → q < n ∧ isDoneProcessing status (n - 1) = true) ∧
    (∀ (status : Nat → APIThemeEvent) (N : Nat),
        (∀ i, (status i).Previewable = true ↔ N ≤ i) →
        ∀ fuel, N < fuel →
          pollLoop status fuel 0 = some (N + 1) ∧
          (∀ (t : ThemeClient) name zip send cl log q,
              ThemeClient.CreateTheme t name zip send status fuel = some (cl, log, q) →
                q = N + 1) ∧
          (∀ (t : ThemeClient) name zip (send : Nat → APIThemeEvent),
              (send 0).Successful = true →
              ThemeClient.CreateTheme t name zip send status fuel =
                some (⟨{ t.config with ThemeId := (send 0).ThemeId }, t.filter⟩,
                      [send 0], N + 1))) := by
  refine ⟨rfl, pollLoop_safety, ?_⟩
  intro status N h fuel hfuel
  have hpoll : pollLoop status fuel 0 = some (N + 1) :=
    pollLoop_scenario status N h fuel 0 (Nat.zero_le N) (by omega)
  refine ⟨hpoll, ?_, ?_⟩
  · intro t name zip send cl log q hcall
    rw [ThemeClient.CreateTheme, hpoll] at hcall
    simp only [Option.some.injEq, Prod.mk.injEq] at hcall
    exact hcall.2.2.symm
  · intro t name zip send hsend
    have hs : createThemePhase1 send = ⟨0, true, some (send 0), [send 0]⟩ := by
      simp [createThemePhase1, createLoop, CreateThemeMaxRetries, hsend]
    rw [ThemeClient.CreateTheme, hs, hpoll]
    rfl

/-- C3 (witness): a status oracle answering previewable = false for the
first 2 queries and true thereafter makes the poll return after the 3rd
query; with a first-attempt-successful create, the returned client's
configuration carries the created theme's id (42). -/
theorem createTheme_poll_behaviour_witness :
    pollLoop (fun i => ⟨42, decide (2 ≤ i), true⟩) 3 0 = some 3 ∧
    ThemeClient.CreateTheme ⟨⟨0, "p", "a", 1, 1⟩, fun _ => false⟩ "n" "z"
        (fun _ => ⟨42, false, true⟩) (fun i => ⟨42, decide (2 ≤ i), true⟩) 3 =
      some (⟨⟨42, "p", "a", 1, 1⟩, fun _ => false⟩, [⟨42, false, true⟩], 3) := by
  have hiff : ∀ i, ((fun i => (⟨42, decide (2 ≤ i), true⟩ : APIThemeEvent)) i).Previewable =
      true ↔ 2 ≤ i := by
    intro i; simp
  have h := createTheme_poll_behaviour.2.2 (fun i => ⟨42, decide (2 ≤ i), true⟩) 2 hiff 3
    (by omega)
  refine ⟨h.1, ?_⟩
  have h3 := h.2.2 ⟨⟨0, "p", "a", 1, 1⟩, fun _ => false⟩ "n" "z"
    (fun _ => ⟨42, false, true⟩) rfl
  exact h3

/-! ## Asset events and the processing pipeline (theme_client.go:41-72, 220-254) -/

/-- Event kind constant `Update` (theme_client.go:64-67).  Kinds are
machine integers in the source; the two named constants are 0 and 1. -/
def Update : Nat := 0

/-- Event kind constant `Remove` (theme_client.go:64-67). -/
def Remove : Nat := 1

/-- An asset change event (`AssetEvent` interface, theme_client.go:69-72):
a capability over an asset and an event kind.  The Go interface methods
`Asset()` and `Type()` become the fields `asset` and `eventType` (the
source names collide with a Lean type and keyword). -/
structure AssetEvent where
  asset : Asset
  eventType : Nat
deriving DecidableEq, Repr

/-- One outbound HTTP mutation issued by `ThemeClient.request`
(theme_client.go:289-302): the verb selected from the event kind, the
asset-collection path, and the request body, which is the JSON object
`{"asset": ...}` marshalled from the event's asset. -/
structure HttpCall where
  verb : String
  path : String
  asset : Asset
deriving DecidableEq, Repr

/-- A result event (`ThemeEvent`) as produced by `Perform`: either the
no-op result for a filtered event (theme_client.go:240) or the classified
outcome of the HTTP mutation (`processResponse` / `NewAPIAssetEvent`,
theme_client.go:253, 304-306), carrying the response code observed
(`none` for a transport failure) and the originating event. -/
inductive ThemeEvent where
  | NoOpEvent : ThemeEvent
  | APIAssetEvent (responseCode : Option Nat) (event : AssetEvent) : ThemeEvent
deriving DecidableEq, Repr

/-- Embedding of `ThemeClient.Perform` (theme_client.go:238-254).
`respond` is the network oracle: the status code returned by
`t.client.Do` for a given request, `none` on a transport failure.  The
second component instruments the network calls made, in order. -/
def ThemeClient.Perform (t : ThemeClient) (respond : HttpCall → Option Nat)
    (event : AssetEvent) : ThemeEvent × List HttpCall :=
  if t.filter event.asset.Key then (ThemeEvent.NoOpEvent, [])
  else
    let verb := if event.eventType = Update then "PUT"
      else if event.eventType = Remove then "DELETE" else ""
    let call : HttpCall := ⟨verb, t.config.AssetPath, event.asset⟩
    (ThemeEvent.APIAssetEvent (respond call) event, [call])

/-- One observable action on the output side of `Process`
(theme_client.go:220-236): a result sent on `messages`, the closing of
`messages`, or the completion signal sent on `done`. -/
inductive StreamItem where
  | message (e : ThemeEvent)
  | messagesClosed
  | doneSignal
deriving DecidableEq, Repr

/-- Is this output-stream action a result message? -/
def StreamItem.isMessage : StreamItem → Bool
  | message _ => true
  | _ => false

/-- Embedding of `ThemeClient.Process` (theme_client.go:220-236) as the
trace of output actions of its goroutine: while the input stream yields
events, each is dispatched through `Perform` and its result sent on
`messages`; when the input closes, `messages` is closed and then the
completion signal is sent. -/
def ThemeClient.Process (t : ThemeClient) (respond : HttpCall → Option Nat) :
    List AssetEvent → List StreamItem
  | job :: more =>
    StreamItem.message (t.Perform respond job).1 :: ThemeClient.Process t respond more
  | [] => [StreamItem.messagesClosed, StreamItem.doneSignal]

/-- C4: for every finite input stream, `Process` emits exactly one result
per input event (in dispatch order), then closes the result stream, and
raises the completion signal last — only after the input has closed and
every result has been emitted. -/
theorem process_stream_shape (t : ThemeClient) (respond : HttpCall → Option Nat)
    (events : List AssetEvent) :
    ThemeClient.Process t respond events =
      (events.map fun e => StreamItem.message (t.Perform respond e).1) ++
        [StreamItem.messagesClosed, StreamItem.doneSignal] ∧
    ((ThemeClient.Process t respond events).filter StreamItem.isMessage).length =
      events.length ∧
    (ThemeClient.Process t respond events).getLast? = some StreamItem.doneSignal := by
  have h1 : ThemeClient.Process t respond events =
      (events.map fun e => StreamItem.message (t.Perform respond e).1) ++
        [StreamItem.messagesClosed, StreamItem.doneSignal] := by
    induction events with
    | nil => rfl
    | cons job more ih => rw [ThemeClient.Process, ih]; rfl
  refine ⟨h1, ?_, ?_⟩
  · rw [h1, List.filter_append]
    have h2 : ((events.map fun e => StreamItem.message (t.Perform respond e).1).filter
        StreamItem.isMessage) = events.map fun e => StreamItem.message (t.Perform respond e).1 := by
      apply List.filter_eq_self.mpr
      intro a ha
      obtain ⟨e, _, he⟩ := List.mem_map.mp ha
      rw [← he]; rfl
    rw [h2]
    simp [StreamItem.isMessage]
  · rw [h1]
    rw [List.getLast?_append]
    rfl

/-- C5: an event whose asset key is matched by the ignore filter makes
`Perform` return the no-op result immediately, with no network call
issued. -/
theorem perform_ignored (t : ThemeClient) (respond : HttpCall → Option Nat)
    (event : AssetEvent) (h : t.filter event.asset.Key = true) :
    ThemeClient.Perform t respond event = (ThemeEvent.NoOpEvent, []) := by
  rw [ThemeClient.Perform, h]
  simp

/-- C5 (witness): a client ignoring exactly `"config/settings.html"`
no-ops on an update of that file without calling the network. -/
theorem perform_ignored_witness :
    (⟨⟨0, "ap", "au", 1, 1⟩, fun k => k == "config/settings.html"⟩ : ThemeClient).filter
      "config/settings.html" = true ∧
    ThemeClient.Perform ⟨⟨0, "ap", "au", 1, 1⟩, fun k => k == "config/settings.html"⟩
        (fun _ => some 200) ⟨⟨"config/settings.html", "v", ""⟩, Update⟩ =
      (ThemeEvent.NoOpEvent, []) :=
  ⟨rfl,
   perform_ignored ⟨⟨0, "ap", "au", 1, 1⟩, fun k => k == "config/settings.html"⟩
     (fun _ => some 200) ⟨⟨"config/settings.html", "v", ""⟩, Update⟩ rfl⟩

/-- C6: a non-ignored event makes `Perform` issue exactly one HTTP call;
its verb is selected by the event kind — `Update` yields one PUT, and
`Remove` one DELETE — and its body is built from the event's asset. -/
theorem perform_dispatch (t : ThemeClient) (respond : HttpCall → Option Nat)
    (event : AssetEvent) (h : t.filter event.asset.Key = false) :
    (ThemeClient.Perform t respond event).2.length = 1 ∧
    (event.eventType = Update →
      ThemeClient.Perform t respond event =
        (ThemeEvent.APIAssetEvent (respond ⟨"PUT", t.config.AssetPath, event.asset⟩) event,
         [⟨"PUT", t.config.AssetPath, event.asset⟩])) ∧
    (event.eventType = Remove →
      ThemeClient.Perform t respond event =
        (ThemeEvent.APIAssetEvent (respond ⟨"DELETE", t.config.AssetPath, event.asset⟩) event,
         [⟨"DELETE", t.config.AssetPath, event.asset⟩])) := by
  refine ⟨?_, ?_, ?_⟩
  · rw [ThemeClient.Perform, h]
    simp
  · intro hty
    rw [ThemeClient.Perform, h]
    simp [hty]
  · intro hty
    rw [ThemeClient.Perform, h]
    simp [hty, Update, Remove]

/-- C6 (witness): with nothing ignored, an update of `layout.liquid`
yields exactly one PUT carrying the asset, and a removal yields exactly
one DELETE. -/
theorem perform_dispatch_witness :
    (⟨⟨0, "assets.json", "au", 1, 1⟩, fun _ => false⟩ : ThemeClient).filter "layout.liquid" =
      false ∧
    (ThemeClient.Perform ⟨⟨0, "assets.json", "au", 1, 1⟩, fun _ => false⟩ (fun _ => some 200)
        ⟨⟨"layout.liquid", "v", ""⟩, Update⟩).2 =
      [⟨"PUT", "assets.json", ⟨"layout.liquid", "v", ""⟩⟩] ∧
    (ThemeClient.Perform ⟨⟨0, "assets.json", "au", 1, 1⟩, fun _ => false⟩ (fun _ => some 200)
        ⟨⟨"layout.liquid", "v", ""⟩, Remove⟩).2 =
      [⟨"DELETE", "assets.json", ⟨"layout.liquid", "v", ""⟩⟩] := by
  refine ⟨rfl, ?_, ?_⟩
  · rw [(perform_dispatch ⟨⟨0, "assets.json", "au", 1, 1⟩, fun _ => false⟩ (fun _ => some 200)
      ⟨⟨"layout.liquid", "v", ""⟩, Update⟩ rfl).2.1 rfl]
  · rw [(perform_dispatch ⟨⟨0, "assets.json", "au", 1, 1⟩, fun _ => false⟩ (fun _ => some 200)
      ⟨⟨"layout.liquid", "v", ""⟩, Remove⟩ rfl).2.2 rfl]

/-! ## Single-asset fetch (theme_client.go:54-62, 154-173, 256-274) -/

/-- Decoded observation of one HTTP exchange as assembled by
`ThemeClient.query` (theme_client.go:256-274): the response status
`code`, the `body` after JSON decoding (`none` when `json.Unmarshal`
fails), and the transport/read error `err` (`none` when absent).  A
failed `client.Do` yields `code = 0` with `err` set; a failed body read
yields the observed status code with `err` set and whatever bytes were
read. -/
structure ApiResponse (α : Type) where
  code : Nat
  body : Option α
  err : Option String
deriving DecidableEq, Repr

/-- Typed non-fatal network error (theme_client.go:54-58). -/
structure NonFatalNetworkError where
  Code : Nat
  Verb : String
  Message : String
deriving DecidableEq, Repr

/-- Embedding of `NonFatalNetworkError.Error` (theme_client.go:60-62). -/
def NonFatalNetworkError.errorText (e : NonFatalNetworkError) : String :=
  toString e.Code ++ " " ++ e.Verb ++ " " ++ e.Message

/-- Error outcome of the single-asset fetch: either a generic Go `error`
value carrying a message, or the typed `NonFatalNetworkError`. -/
inductive AssetError where
  | generic (msg : String)
  | nonFatal (e : NonFatalNetworkError)
deriving DecidableEq, Repr

/-- Embedding of `ThemeClient.Asset` (theme_client.go:154-173); the
source method is named `Asset`, which in Lean collides with the `Asset`
type.  The transport error is checked first; then a status code ≥ 400
yields the typed non-fatal error with verb GET; then a body that fails
to decode yields the decoder's generic error. -/
def fetchAsset (resp : ApiResponse Asset) : Except AssetError Asset :=
  match resp.err with
  | some e => Except.error (AssetError.generic e)
  | none =>
    if 400 ≤ resp.code then
      Except.error (AssetError.nonFatal ⟨resp.code, "GET", "not found"⟩)
    else
      match resp.body with
      | none => Except.error (AssetError.generic "unexpected end of JSON input")
      | some a => Except.ok a

/-- C7 (counterexample): a fetch whose response code is 404 but whose
body read also failed (a reachable `query` outcome: `ReadAll` returns an
error alongside the observed status code) produces the generic error,
not the typed non-fatal one — refuting the claim for that fetch. -/
theorem fetchAsset_404_transport_generic :
    400 ≤ (⟨404, none, some "unexpected EOF"⟩ : ApiResponse Asset).code ∧
    fetchAsset ⟨404, none, some "unexpected EOF"⟩ =
      Except.error (AssetError.generic "unexpected EOF") ∧
    ∀ e : NonFatalNetworkError,
      fetchAsset ⟨404, none, some "unexpected EOF"⟩ ≠
        Except.error (AssetError.nonFatal e) := by
  refine ⟨by decide, rfl, ?_⟩
  intro e h
  rw [show fetchAsset ⟨404, none, some "unexpected EOF"⟩ =
      Except.error (AssetError.generic "unexpected EOF") from rfl] at h
  simp at h

/-- C7 (amended): a single-asset fetch that yields a completed response
(no transport-level failure) with code ≥ 400 fails with the typed
non-fatal error carrying that code and verb GET; a fetch with a
transport-level failure fails with the generic error built from it, even
when a response code ≥ 400 was also observed. -/
theorem fetchAsset_error_classification (resp : ApiResponse Asset) :
    (resp.err = none → 400 ≤ resp.code →
      fetchAsset resp = Except.error (AssetError.nonFatal ⟨resp.code, "GET", "not found"⟩)) ∧
    (∀ e, resp.err = some e → fetchAsset resp = Except.error (AssetError.generic e)) := by
  constructor
  · intro hnone hcode
    rw [fetchAsset, hnone]
    simp [hcode]
  · intro e he
    rw [fetchAsset, he]

/-- C7 (witness): a clean 404 response yields the typed non-fatal error
with code 404 and verb GET; a transport failure yields the generic
error. -/
theorem fetchAsset_error_classification_witness :
    fetchAsset ⟨404, none, none⟩ =
      Except.error (AssetError.nonFatal ⟨404, "GET", "not found"⟩) ∧
    fetchAsset ⟨0, none, some "connection refused"⟩ =
      Except.error (AssetError.generic "connection refused") :=
  ⟨(fetchAsset_error_classification ⟨404, none, none⟩).1 rfl (by decide),
   (fetchAsset_error_classification ⟨0, none, some "connection refused"⟩).2
     "connection refused" rfl⟩

/-! ## Rate limiter accessor (theme_client.go:86-88) -/

/-- Modelled from the spec: the `LeakyBucket` limiter (leaky_bucket.go is
outside the provided sources) is the token-bucket admission gate of §4.4
with capacity, refill rate and drip cost.  The Go value is handled
through a pointer `*LeakyBucket`; pointer identity is embedded as the
allocation address `addr`. -/
structure LeakyBucket where
  BucketSize : Nat
  RefillRate : Nat
  Drip : Nat
  addr : Nat
deriving DecidableEq, Repr

/-- Modelled from the spec: `NewLeakyBucket` constructs a fresh limiter
(§4.4); allocation is embedded by threading a heap counter, and each
construction returns a value at a new address. -/
def NewLeakyBucket (bucketSize refillRate drip : Nat) (heap : Nat) : LeakyBucket × Nat :=
  (⟨bucketSize, refillRate, drip, heap⟩, heap + 1)

/-- Embedding of `ThemeClient.LeakyBucket` (theme_client.go:86-88): the
accessor calls `NewLeakyBucket` with the configured capacity and refill
rate and drip cost 1. -/
def ThemeClient.LeakyBucket (t : ThemeClient) (heap : Nat) : LeakyBucket × Nat :=
  NewLeakyBucket t.config.BucketSize t.config.RefillRate 1 heap

/-- C8: the accessor constructs a fresh limiter on every call — two
successive calls on the same client yield limiters at distinct
addresses, so no single shared limiter instance exists; the code
contradicts the shared-instance design requirement (flagged as a likely
defect in spec §9). -/
theorem leakyBucket_fresh_per_call :
    ((⟨⟨0, "ap", "au", 10, 2⟩, fun _ => false⟩ : ThemeClient).LeakyBucket 0).1.addr ≠
      ((⟨⟨0, "ap", "au", 10, 2⟩, fun _ => false⟩ : ThemeClient).LeakyBucket
        (((⟨⟨0, "ap", "au", 10, 2⟩, fun _ => false⟩ : ThemeClient).LeakyBucket 0).2)).1.addr := by
  decide

/-! ## Remote asset listing (theme_client.go:90-132) -/

/-- Modelled from the spec: the `ByAsset` sort order used by
`sort.Sort(ByAsset(...))` is defined outside the provided sources; §3
orders assets by key, lexicographic.  Insertion into a key-sorted
list. -/
def insertSorted (a : Asset) : List Asset → List Asset
  | [] => [a]
  | b :: rest => if keyLt b.Key a.Key then b :: insertSorted a rest else a :: b :: rest

/-- Modelled from the spec: deterministic sort of a listing ascending by
key (§3, §4.1); the concrete algorithm (insertion sort) stands in for
Go's `sort.Sort`, which is outside the provided sources. -/
def sortAssets : List Asset → List Asset
  | [] => []
  | a :: rest => insertSorted a (sortAssets rest)

/-- An error sent on the `errs` channel of `AssetList`: the transport
error forwarded from `query`, or the JSON decode error from
`json.Unmarshal`. -/
inductive ListErr where
  | transport (msg : String)
  | decode
deriving DecidableEq, Repr

/-- One channel operation attempted by the `AssetList` goroutine
(theme_client.go:93-118): a send on `errs`, a send on `results`, or the
closing of either channel. -/
inductive ChanOp where
  | sendErr (e : ListErr)
  | sendResult (a : Asset)
  | closeResults
  | closeErrs
deriving DecidableEq, Repr

/-- Embedding of the goroutine body of `ThemeClient.AssetList`
(theme_client.go:90-120) as the ordered sequence of channel operations
it attempts, with the HTTP exchange abstracted into `resp`.  Note the
transport-error branch (line 99-101) sends on `errs` but does not
return, so decoding and asset emission still follow it; only the
decode-error branch (line 105-108) returns early, skipping both channel
closes. -/
def assetListOps (resp : ApiResponse (List Asset)) : List ChanOp :=
  (match resp.err with
   | some e => [ChanOp.sendErr (ListErr.transport e)]
   | none => []) ++
  match resp.body with
  | none => [ChanOp.sendErr ListErr.decode]
  | some assets =>
    ((ignoreCompiledAssets (sortAssets assets)).map ChanOp.sendResult) ++
      [ChanOp.closeResults, ChanOp.closeErrs]

/-- The assets sent on the `results` channel, in emission order. -/
def resultsSent (ops : List ChanOp) : List Asset :=
  ops.filterMap fun op =>
    match op with
    | ChanOp.sendResult a => some a
    | _ => none

/-- C9: the listing goroutine at a reachable failing exchange — the body
read errored (`err` set) after a decodable prefix of the body had been
received — sends the error and then still emits assets and closes both
channels, because the transport-error branch lacks the early return the
decode-error branch has.  The operation does not abort without asset
results, contradicting the stated error handling. -/
theorem assetList_error_still_emits :
    (⟨200, some [⟨"layout.liquid", "", ""⟩], some "unexpected EOF"⟩ :
        ApiResponse (List Asset)).err ≠ none ∧
    assetListOps ⟨200, some [⟨"layout.liquid", "", ""⟩], some "unexpected EOF"⟩ =
      [ChanOp.sendErr (ListErr.transport "unexpected EOF"),
       ChanOp.sendResult ⟨"layout.liquid", "", ""⟩,
       ChanOp.closeResults, ChanOp.closeErrs] ∧
    resultsSent
        (assetListOps ⟨200, some [⟨"layout.liquid", "", ""⟩], some "unexpected EOF"⟩) ≠
      [] := by
  refine ⟨by simp, by decide, by decide⟩

/-- Consumption of the goroutine's channel operations by a consumer that
reads only `results` and never reads `errs` (the `AssetListSync` calling
pattern, theme_client.go:122-132): a send on the unread, unbuffered
`errs` channel blocks the goroutine forever, so the consumer's receive
loop never sees `results` closed and never returns (`none`); reaching
`closeResults` lets the loop return the assets received so far. -/
def runWithoutErrReader : List ChanOp → List Asset → Option (List Asset)
  | [], _ => none
  | ChanOp.sendErr _ :: _, _ => none
  | ChanOp.sendResult a :: rest, acc => runWithoutErrReader rest (acc ++ [a])
  | ChanOp.closeResults :: _, acc => some acc
  | ChanOp.closeErrs :: rest, acc => runWithoutErrReader rest acc

/-- Embedding of `ThemeClient.AssetListSync` (theme_client.go:122-132):
start `AssetList`, discard the error channel, and collect from the
result channel until it is closed.  `none` means the call never
returns. -/
def AssetListSync (resp : ApiResponse (List Asset)) : Option (List Asset) :=
  runWithoutErrReader (assetListOps resp) []

theorem runWithoutErrReader_results (xs : List Asset) (rest : List ChanOp) :
    ∀ acc, runWithoutErrReader (xs.map ChanOp.sendResult ++ ChanOp.closeResults :: rest) acc =
      some (acc ++ xs) := by
  induction xs with
  | nil => intro acc; simp [runWithoutErrReader]
  | cons x xs ih =>
    intro acc
    rw [List.map_cons, List.cons_append]
    rw [show runWithoutErrReader
        (ChanOp.sendResult x :: (xs.map ChanOp.sendResult ++ ChanOp.closeResults :: rest)) acc =
        runWithoutErrReader (xs.map ChanOp.sendResult ++ ChanOp.closeResults :: rest)
          (acc ++ [x]) from rfl]
    rw [ih (acc ++ [x])]
    simp

/-- C10 (counterexample): on a failed listing `AssetListSync` never
returns — the producer blocks on the unread error channel and the result
channel is never closed — while an empty successful listing returns the
empty list; the two invocations are therefore not indistinguishable, and
the failed one has no return value at all. -/
theorem assetListSync_failure_never_returns :
    AssetListSync ⟨0, none, some "connection refused"⟩ = none ∧
    AssetListSync ⟨200, some [], none⟩ = some [] := by
  refine ⟨by decide, by decide⟩

/-- C10 (amended): `AssetListSync` reads only the result channel and
discards the error channel, so no listing failure is ever surfaced; on a
successful listing it returns exactly the assets emitted on the result
channel in emission order (the sorted, deduplicated listing); but on a
listing whose HTTP call fails or whose body does not decode it never
returns — a failed listing is distinguishable from an empty one by
non-termination, not conflated with it. -/
theorem assetListSync_characterization (resp : ApiResponse (List Asset)) :
    ((resp.err ≠ none ∨ resp.body = none) → AssetListSync resp = none) ∧
    (∀ l, resp.err = none → resp.body = some l →
      AssetListSync resp = some (ignoreCompiledAssets (sortAssets l))) ∧
    (∀ v, AssetListSync resp = some v → v = resultsSent (assetListOps resp)) := by
  refine ⟨?_, ?_, ?_⟩
  · intro h
    rcases he : resp.err with _ | e
    · rcases hb : resp.body with _ | l
      · rw [AssetListSync, assetListOps, he, hb]
        rfl
      · cases h with
        | inl hc => exact absurd he hc
        | inr hc => rw [hb] at hc; exact absurd hc (by simp)
    · rw [AssetListSync, assetListOps, he]
      rcases hb : resp.body with _ | l <;> rfl
  · intro l he hb
    rw [AssetListSync, assetListOps, he, hb]
    simp only [List.nil_append]
    rw [runWithoutErrReader_results (ignoreCompiledAssets (sortAssets l)) [ChanOp.closeErrs] []]
    rw [List.nil_append]
  · intro v hv
    rcases he : resp.err with _ | e
    · rcases hb : resp.body with _ | l
      · rw [AssetListSync, assetListOps, he, hb] at hv
        exact absurd hv (by simp [runWithoutErrReader])
      · rw [AssetListSync, assetListOps, he, hb] at hv
        simp only [List.nil_append] at hv
        rw [runWithoutErrReader_results (ignoreCompiledAssets (sortAssets l))
          [ChanOp.closeErrs] []] at hv
        rw [List.nil_append] at hv
        injection hv with hv
        rw [← hv, assetListOps, he, hb]
        simp only [List.nil_append]
        rw [resultsSent, List.filterMap_append, List.filterMap_map]
        have hcomp : ((fun op =>
            match op with
            | ChanOp.sendResult a => some a
            | _ => none) ∘ ChanOp.sendResult) = fun a : Asset => some a := rfl
        rw [hcomp]
        simp
    · rw [AssetListSync, assetListOps, he] at hv
      rcases hb : resp.body with _ | l <;> rw [hb] at hv <;>
        exact absurd hv (by simp [runWithoutErrReader])

/-- C10 (witness): the characterization applied to a concrete failing
exchange (never returns) and to a concrete one-asset success (returns
that asset). -/
theorem assetListSync_characterization_witness :
    AssetListSync ⟨500, none, some "boom"⟩ = none ∧
    AssetListSync ⟨200, some [⟨"a", "", ""⟩], none⟩ = some [⟨"a", "", ""⟩] := by
  constructor
  · exact (assetListSync_characterization ⟨500, none, some "boom"⟩).1 (Or.inl (by simp))
  · have h := (assetListSync_characterization ⟨200, some [⟨"a", "", ""⟩], none⟩).2.1
      [⟨"a", "", ""⟩] rfl rfl
    rw [h]
    decide
